import Mathlib

/-!
Shallow embedding of the NagarikMitra report store (src/App.tsx).

The app keeps a list of civic-issue reports in React state (`reports`) and
mirrors it into AsyncStorage under the key CIVIC_REPORTS as a JSON string.
We model the JSON text by the JSON value it denotes, the component state by
`AppState`, and each mutating handler by a state-transition function.  The
persistence engine (AsyncStorage) and the platform JSON codec are external
collaborators; a `Bool` argument `ok` stands for whether the storage call
succeeds.
-/

/-- JSON values, the value domain of the platform codec
(`JSON.stringify` / `JSON.parse`).  A stored string is modelled by the JSON
value it denotes; numbers are modelled as rationals, which cover every
numeric literal the app ever writes. -/
inductive Json where
  | null : Json
  | str : String → Json
  | num : Rat → Json
  | arr : List Json → Json
  | obj : List (String × Json) → Json
deriving Repr

/-- A geolocation pair, as produced by the location capture collaborator
(`{ latitude, longitude }` in `handleGetLocation`). -/
structure Location where
  latitude : Rat
  longitude : Rat
deriving Repr, DecidableEq

/-- One report record, with exactly the fields built in `handleSubmit`
(src/App.tsx lines 153-161): id, photoUri, location, description,
createdAt, status, department.  `location` and `status` are optional
because loaded data is not validated against the shape (`JSON.parse` output
is used as-is), and `advanceStatus` / `renderReport` explicitly guard a
missing status with `r.status || 'Reported'`. -/
structure Report where
  id : String
  photoUri : String
  location : Option Location
  description : String
  createdAt : String
  status : Option String
  department : String
deriving Repr, DecidableEq

/-- Encoding of a location field as written by `JSON.stringify`:
`null` when absent, otherwise an object with the two coordinates. -/
def encodeLocation : Option Location → Json
  | none => Json.null
  | some l => Json.obj [("latitude", Json.num l.latitude), ("longitude", Json.num l.longitude)]

/-- Encoding of the optional status field: `null` when absent. -/
def encodeStatusField : Option String → Json
  | none => Json.null
  | some s => Json.str s

/-- JSON object written for one report by `JSON.stringify`, field names and
order exactly those of the object literal in `handleSubmit`. -/
def encodeReport (r : Report) : Json :=
  Json.obj [("id", Json.str r.id), ("photoUri", Json.str r.photoUri),
            ("location", encodeLocation r.location),
            ("description", Json.str r.description),
            ("createdAt", Json.str r.createdAt),
            ("status", encodeStatusField r.status),
            ("department", Json.str r.department)]

/-- JSON array written for the whole list by `JSON.stringify(newReports)`. -/
def encodeReports (l : List Report) : Json :=
  Json.arr (l.map encodeReport)

/-- Reading a location field back from JSON.  The code has no explicit
decoder (`JSON.parse` output is used untyped); this is the typed reading of
a JSON value into the `Report` shape, `none` marking a value outside it. -/
def decodeLocation : Json → Option (Option Location)
  | Json.null => some none
  | Json.obj [("latitude", Json.num la), ("longitude", Json.num lo)] =>
      some (some { latitude := la, longitude := lo })
  | _ => none

/-- Reading the optional status field back from JSON. -/
def decodeStatusField : Json → Option (Option String)
  | Json.null => some none
  | Json.str s => some (some s)
  | _ => none

/-- Reading one report object back from JSON (typed view of `JSON.parse`
output). -/
def decodeReport : Json → Option Report
  | Json.obj [("id", Json.str i), ("photoUri", Json.str p),
              ("location", lj),
              ("description", Json.str d),
              ("createdAt", Json.str c),
              ("status", sj),
              ("department", Json.str dep)] =>
      match decodeLocation lj, decodeStatusField sj with
      | some loc, some st =>
          some { id := i, photoUri := p, location := loc, description := d,
                 createdAt := c, status := st, department := dep }
      | _, _ => none
  | _ => none

/-- Reading a list of report objects back from a JSON array element list. -/
def decodeReportList : List Json → Option (List Report)
  | [] => some []
  | j :: rest =>
      match decodeReport j, decodeReportList rest with
      | some r, some rs => some (r :: rs)
      | _, _ => none

/-- Reading the whole persisted entry back from JSON. -/
def decodeReports : Json → Option (List Report)
  | Json.arr js => decodeReportList js
  | _ => none

/-- The component state relevant to the store: the in-memory `reports`
React state and the AsyncStorage entry under CIVIC_REPORTS (`none` when the
key is absent, otherwise the JSON value the stored string denotes). -/
structure AppState where
  reports : List Report
  storage : Option Json

/-- Model of `saveReports` (src/App.tsx lines 95-102): sets the in-memory state to
the new list FIRST, then awaits `AsyncStorage.setItem`; a storage failure
(`ok = false`) is caught and only logged with `console.warn`, so the
in-memory list keeps the new value, the stored entry keeps its old value,
and no error propagates to the caller (the function has no failure
outcome). -/
def saveReports (s : AppState) (newReports : List Report) (ok : Bool) : AppState :=
  { reports := newReports,
    storage := if ok then some (encodeReports newReports) else s.storage }

/-- Model of `loadReports` (src/App.tsx lines 86-93): reads the CIVIC_REPORTS entry;
when present and readable it replaces the in-memory list with the parsed
value; an absent entry, a read failure or a parse failure (`ok = false`)
leaves the state alone (the failure is only logged). -/
def loadReports (s : AppState) (ok : Bool) : AppState :=
  if ok then
    match s.storage with
    | some j =>
        match decodeReports j with
        | some l => { s with reports := l }
        | none => s
    | none => s
  else s

/-- Model of the platform string trim (JS `String.prototype.trim`), used
by the submit guard and the assign prompt callback: strips leading and
trailing whitespace. -/
def jsTrim (s : String) : String :=
  ⟨((s.data.dropWhile Char.isWhitespace).reverse.dropWhile Char.isWhitespace).reverse⟩

/-- Outcome of a submission attempt: `validationError` models the
`Alert.alert('Incomplete', ...)` plus early return on missing input, and
`submitted` the success path ending in the 'Submitted' alert. -/
inductive SubmitResult where
  | validationError : SubmitResult
  | submitted : SubmitResult
deriving Repr, DecidableEq

/-- Model of `handleSubmit` (src/App.tsx lines 148-168).  The guard is the JS test
`!photoUri || !location || !description.trim()` (a null or empty photo
reference, an absent location, or a whitespace-only description is
rejected).  On success it builds the new report with id
`Date.now().toString()` (passed in as `nowId`), the raw description,
status 'Reported' and department 'Unassigned', prepends it, and calls
`saveReports` on the new list. -/
def handleSubmit (s : AppState) (photoUri : Option String) (loc : Option Location)
    (description : String) (nowId : String) (createdAt : String) (ok : Bool) :
    AppState × SubmitResult :=
  match photoUri, loc with
  | some p, some l =>
      if p = "" ∨ jsTrim description = "" then (s, SubmitResult.validationError)
      else
        (saveReports s
          ({ id := nowId, photoUri := p, location := some l,
             description := description, createdAt := createdAt,
             status := some "Reported", department := "Unassigned" } :: s.reports) ok,
         SubmitResult.submitted)
  | _, _ => (s, SubmitResult.validationError)

/-- The status order array local to `advanceStatus`
(`['Reported', 'Acknowledged', 'In Progress', 'Resolved']`). -/
def statusOrder : List String := ["Reported", "Acknowledged", "In Progress", "Resolved"]

/-- JS `r.status || 'Reported'`: the default applies when the field is
null/undefined or the empty string (both falsy). -/
def jsStatusOrReported : Option String → String
  | none => "Reported"
  | some x => if x = "" then "Reported" else x

/-- The status update computed inside `advanceStatus` for the matching
report: `idx = order.indexOf(r.status || 'Reported')` (−1 when not found),
`next = order[Math.min(idx + 1, order.length - 1)]`. -/
def advanceRawStatus (st : Option String) : String :=
  let cur := jsStatusOrReported st
  let idx : Int :=
    match statusOrder.findIdx? (fun y => y = cur) with
    | none => -1
    | some n => (n : Int)
  statusOrder.getD (min (idx + 1) 3).toNat "Reported"

/-- Model of `advanceStatus` (src/App.tsx lines 170-181): maps over the list,
replacing the status of every report whose id matches, then saves. -/
def advanceStatus (s : AppState) (id : String) (ok : Bool) : AppState :=
  saveReports s
    (s.reports.map (fun r =>
      if r.id = id then { r with status := some (advanceRawStatus r.status) } else r)) ok

/-- Model of `assignDept` (src/App.tsx lines 183-186): maps over the list, setting
the department of every report whose id matches, then saves. -/
def assignDept (s : AppState) (id dept : String) (ok : Bool) : AppState :=
  saveReports s
    (s.reports.map (fun r => if r.id = id then { r with department := dept } else r)) ok

/-- Outcome of the Assign button flow: `ignored` when the prompt callback
does nothing (null or whitespace-only input), `assigned` when it calls
`assignDept`. -/
inductive AssignOutcome where
  | ignored : AssignOutcome
  | assigned : AssignOutcome
deriving Repr, DecidableEq

/-- The `Alert.prompt` callback wired to the Assign button
(src/App.tsx lines 226-236): `if (txt && txt.trim()) assignDept(item.id,
txt.trim())` — empty or whitespace-only input is silently dropped, anything
else is trimmed and assigned. -/
def promptAssign (s : AppState) (id : String) (txt : Option String) (ok : Bool) :
    AppState × AssignOutcome :=
  match txt with
  | some t =>
      if t = "" then (s, AssignOutcome.ignored)
      else if jsTrim t = "" then (s, AssignOutcome.ignored)
      else (assignDept s id (jsTrim t) ok, AssignOutcome.assigned)
  | none => (s, AssignOutcome.ignored)

/-- The confirmed Delete path of `deleteReport` (src/App.tsx lines
188-200): filters the report with the given id out of the list, then
saves. -/
def deleteReport (s : AppState) (id : String) (ok : Bool) : AppState :=
  saveReports s (s.reports.filter (fun r => r.id ≠ id)) ok

/-- The confirmed Clear path of the clear-all button (src/App.tsx line
370): `saveReports([])`. -/
def clearAll (s : AppState) (ok : Bool) : AppState :=
  saveReports s [] ok

/-- Model of `filteredReports` (src/App.tsx line 202):
`reports.filter((r) => (filter === 'All' ? true : r.status === filter))`.
A pure derivation over the current list; it holds no state and performs no
mutation. -/
def filteredReports (reports : List Report) (filt : String) : List Report :=
  reports.filter (fun r => if filt = "All" then true else r.status = some filt)

/-! Concrete sample data used by counterexamples and witnesses. -/

/-- A sample report with id "1" and status Reported. -/
def rA : Report :=
  { id := "1", photoUri := "p1", location := some { latitude := 1, longitude := 2 },
    description := "pothole", createdAt := "2024-01-01", status := some "Reported",
    department := "Unassigned" }

/-- A sample report with id "2" and status Resolved. -/
def rB : Report :=
  { id := "2", photoUri := "p2", location := none,
    description := "street lamp broken", createdAt := "2024-01-02",
    status := some "Resolved", department := "Public Works" }

/-- A sample report whose id is the timestamp string "100". -/
def rT : Report :=
  { id := "100", photoUri := "p0", location := some { latitude := 1, longitude := 2 },
    description := "old report", createdAt := "t0", status := some "Reported",
    department := "Unassigned" }

/-- A sample state holding `rA` and `rB` with no persisted entry. -/
def sAB : AppState := { reports := [rA, rB], storage := none }

/-! Helper lemmas shared between claims. -/

/-- Decoding inverts encoding on a single report. -/
theorem decodeReport_encodeReport (r : Report) : decodeReport (encodeReport r) = some r := by
  cases r with
  | mk i p loc d c st dep => cases loc <;> cases st <;> rfl

/-- Decoding inverts encoding on a list of reports. -/
theorem decodeReportList_map (l : List Report) :
    decodeReportList (l.map encodeReport) = some l := by
  induction l with
  | nil => rfl
  | cons r t ih => simp [decodeReportList, decodeReport_encodeReport, ih]

/-- Advancing Resolved any number of times stays at Resolved. -/
theorem iterate_advance_resolved (m : Nat) :
    (fun st => advanceRawStatus (some st))^[m] "Resolved" = "Resolved" := by
  induction m with
  | zero => rfl
  | succ k ih =>
      rw [Function.iterate_succ_apply', ih]
      decide

/-- Mapping a function that fixes every element of a list is the identity. -/
theorem map_id_of_fixed {α : Type} (l : List α) (f : α → α) (h : ∀ r ∈ l, f r = r) :
    l.map f = l := by
  induction l with
  | nil => rfl
  | cons a t ih =>
      simp only [List.map_cons, h a (List.mem_cons_self a t)]
      rw [ih (fun r hr => h r (List.mem_cons_of_mem a hr))]

/-- Zipping a list with its image under a map pairs each element with its
image. -/
theorem zip_map_self {α β : Type} (g : α → β) (l : List α) :
    l.zip (l.map g) = l.map (fun a => (a, g a)) := by
  induction l with
  | nil => rfl
  | cons a t ih => simp [List.zip_cons_cons, ih]

/-! Claim theorems. -/

/-- C6: for every list of reports, including the empty list, saving the
list and then loading returns a list equal to the original field-for-field
(the persisted JSON value decodes back to the same reports, in the same
order). -/
theorem save_load_roundtrip (s : AppState) (l : List Report) :
    (loadReports (saveReports s l true) true).reports = l := by
  simp [loadReports, saveReports, decodeReports, encodeReports, decodeReportList_map]

/-- C5: for every store state, if any of the three submit inputs is empty
or absent (no photo reference, no location, or description empty after
trimming), submit rejects the input — modelled as the `validationError`
outcome, the 'Incomplete' alert plus early return — and returns the state
unchanged: no report is added and nothing is persisted. -/
theorem submit_invalid_rejected (s : AppState) (photoUri : Option String)
    (loc : Option Location) (description nowId createdAt : String) (ok : Bool)
    (h : photoUri = none ∨ photoUri = some "" ∨ loc = none ∨ jsTrim description = "") :
    handleSubmit s photoUri loc description nowId createdAt ok =
      (s, SubmitResult.validationError) := by
  cases photoUri with
  | none => cases loc <;> rfl
  | some p =>
      cases loc with
      | none => rfl
      | some l =>
          rcases h with h | h | h | h
          · exact absurd h (by simp)
          · simp only [Option.some.injEq] at h
            simp [handleSubmit, h]
          · exact absurd h (by simp)
          · simp [handleSubmit, h]

/-- Witness for C5 at a concrete input: submitting with no location is
rejected and leaves the sample state untouched. -/
theorem submit_invalid_rejected_witness :
    handleSubmit sAB (some "p9") none "crack in wall" "500" "t5" true =
      (sAB, SubmitResult.validationError) :=
  submit_invalid_rejected sAB (some "p9") none "crack in wall" "500" "t5" true
    (Or.inr (Or.inr (Or.inl rfl)))

/-- C8: filtering with the distinguished "All" selector returns the full
list in store order; filtering by any other selector returns exactly the
subsequence of reports whose status equals it (same relative order, being
a sublist).  `filteredReports` is a pure function of the current list, so
filtering never changes the store. -/
theorem filteredReports_spec (l : List Report) (f : String) :
    filteredReports l "All" = l ∧
    (f ≠ "All" →
      (filteredReports l f).Sublist l ∧
      ∀ r : Report, r ∈ filteredReports l f ↔ r ∈ l ∧ r.status = some f) := by
  constructor
  · simp [filteredReports]
  · intro hf
    constructor
    · exact List.filter_sublist l
    · intro r
      simp [filteredReports, hf, List.mem_filter]

/-- Witness for C8 on the sample data: the "All" selector returns the full
list, and membership under the "Resolved" selector is exactly membership
with status Resolved. -/
theorem filteredReports_spec_witness :
    filteredReports sAB.reports "All" = sAB.reports ∧
    (rB ∈ filteredReports sAB.reports "Resolved" ↔
      rB ∈ sAB.reports ∧ rB.status = some "Resolved") :=
  ⟨(filteredReports_spec sAB.reports "Resolved").1,
   ((filteredReports_spec sAB.reports "Resolved").2 (by decide)).2 rB⟩

/-- Counterexample to C10: the empty string is a status outside the four
defined values, yet `advanceStatus` does not reset it to 'Reported' — being
falsy, `r.status || 'Reported'` treats it like an absent status, so it is
advanced to 'Acknowledged'. -/
theorem advance_empty_status_counterexample :
    advanceRawStatus (some "") = "Acknowledged" ∧
    ("" ∈ statusOrder → False) ∧
    advanceRawStatus (some "") ≠ "Reported" := by
  refine ⟨by decide, by decide, by decide⟩

/-- C10 (amended): an absent status and the empty-string status (both
falsy in JS) are treated as 'Reported' and advanced to 'Acknowledged'; any
non-empty status string outside the four defined values is reset to
'Reported' (its index is −1, so the next index is min(0,3) = 0). -/
theorem advance_unknown_status :
    advanceRawStatus none = "Acknowledged" ∧
    advanceRawStatus (some "") = "Acknowledged" ∧
    (∀ x : String, x ≠ "" → x ∉ statusOrder → advanceRawStatus (some x) = "Reported") := by
  refine ⟨by decide, by decide, ?_⟩
  intro x hne hx
  simp only [statusOrder, List.mem_cons, List.not_mem_nil, or_false] at hx
  push_neg at hx
  obtain ⟨h1, h2, h3, h4⟩ := hx
  simp [advanceRawStatus, jsStatusOrReported, hne, statusOrder, List.findIdx?,
    Ne.symm h1, Ne.symm h2, Ne.symm h3, Ne.symm h4]

/-- Witness for C10 at a concrete input: the unknown status "Pending" is
reset to 'Reported'. -/
theorem advance_unknown_status_witness :
    advanceRawStatus (some "Pending") = "Reported" :=
  advance_unknown_status.2.2 "Pending" (by decide) (by decide)

/-- C3: repeated status advancement moves a report's status through exactly
the sequence Reported, Acknowledged, In Progress, Resolved and then keeps
it at Resolved (advancing Resolved is a successful no-op).  First clause:
the n-th iterate of the next-status function from 'Reported' is the entry
of the order array at index min(n,3), so the trajectory is exactly
Reported, Acknowledged, In Progress, Resolved, Resolved, …  Second clause:
for every defined status, the index of its successor is min(index+1, 3) —
never backward, never skipping a stage.  Third clause: `advanceStatus`
applies exactly this next-status function to the report with the given id
in the store. -/
theorem advance_status_sequence :
    (∀ n : Nat,
      (fun st => advanceRawStatus (some st))^[n] "Reported" =
        statusOrder.getD (min n 3) "Reported") ∧
    (∀ st ∈ statusOrder,
      statusOrder.findIdx? (fun y => y = advanceRawStatus (some st)) =
        some (min ((statusOrder.findIdx? (fun y => y = st)).getD 0 + 1) 3)) ∧
    (∀ (s : AppState) (id : String) (ok : Bool) (r : Report), r ∈ s.reports → r.id = id →
      { r with status := some (advanceRawStatus r.status) } ∈ (advanceStatus s id ok).reports) := by
  refine ⟨?_, ?_, ?_⟩
  · intro n
    match n with
    | 0 => decide
    | 1 => decide
    | 2 => decide
    | (m + 3) =>
        rw [Function.iterate_add_apply]
        have h3 : (fun st => advanceRawStatus (some st))^[3] "Reported" = "Resolved" := by decide
        rw [h3, iterate_advance_resolved m]
        have hm : min (m + 3) 3 = 3 := by omega
        rw [hm]
        decide
  · intro st hst
    fin_cases hst <;> decide
  · intro s id ok r hr hid
    simp only [advanceStatus, saveReports]
    exact List.mem_map.mpr ⟨r, hr, by rw [if_pos hid]⟩

/-- Witness for C3 at concrete inputs: five advances from 'Reported' end at
'Resolved'; the successor of 'Acknowledged' sits at index min(1+1,3) = 2;
and advancing the sample state at id "1" puts the acknowledged version of
`rA` in the store. -/
theorem advance_status_sequence_witness :
    ((fun st => advanceRawStatus (some st))^[5] "Reported" =
      statusOrder.getD (min 5 3) "Reported") ∧
    (statusOrder.findIdx? (fun y => y = advanceRawStatus (some "Acknowledged")) =
      some (min ((statusOrder.findIdx? (fun y => y = "Acknowledged")).getD 0 + 1) 3)) ∧
    { rA with status := some (advanceRawStatus rA.status) } ∈ (advanceStatus sAB "1" true).reports :=
  ⟨advance_status_sequence.1 5,
   advance_status_sequence.2.1 "Acknowledged" (by decide),
   advance_status_sequence.2.2 sAB "1" true rA (by decide) rfl⟩

/-- C9: for every state and every id present in the list, advancing the
status changes only the status field of the matching report(s): the list
keeps its length and order, every report with a different id is unchanged,
and a matching report keeps its id, photoUri, location, description,
createdAt and department, only its status being replaced by the next
status. -/
theorem advance_status_frame (s : AppState) (id : String) (ok : Bool)
    (_hpresent : ∃ r ∈ s.reports, r.id = id) :
    (advanceStatus s id ok).reports.length = s.reports.length ∧
    ∀ p ∈ s.reports.zip (advanceStatus s id ok).reports,
      (p.1.id ≠ id → p.2 = p.1) ∧
      (p.1.id = id →
        p.2.id = p.1.id ∧ p.2.photoUri = p.1.photoUri ∧
        p.2.location = p.1.location ∧ p.2.description = p.1.description ∧
        p.2.createdAt = p.1.createdAt ∧ p.2.department = p.1.department ∧
        p.2.status = some (advanceRawStatus p.1.status)) := by
  constructor
  · simp [advanceStatus, saveReports]
  · intro p hp
    simp only [advanceStatus, saveReports] at hp
    rw [zip_map_self] at hp
    obtain ⟨r, hr, hpe⟩ := List.mem_map.mp hp
    subst hpe
    by_cases h : r.id = id
    · simp [h]
    · simp [h]

/-- Witness for C9: advancing the sample state at id "1" (present there)
keeps the list length. -/
theorem advance_status_frame_witness :
    (advanceStatus sAB "1" true).reports.length = sAB.reports.length :=
  (advance_status_frame sAB "1" true ⟨rA, by decide, rfl⟩).1

/-- Counterexample to C4: calling `advanceStatus` on the absent id "999"
does not fail — the code has no NotFoundError — and it does not leave the
persisted state unchanged either: the unchanged list is re-persisted, so
the previously absent storage entry becomes present. -/
theorem missing_id_counterexample :
    (advanceStatus sAB "999" true).reports = sAB.reports ∧
    sAB.storage = none ∧
    (advanceStatus sAB "999" true).storage ≠ none := by
  refine ⟨by decide, rfl, ?_⟩
  simp [advanceStatus, saveReports]

/-- C4 (amended): on an id matching no report, `advanceStatus`,
`assignDept` and `deleteReport` leave the in-memory list unchanged, but do
not fail — no NotFoundError is raised anywhere in the code — and when
persistence succeeds they re-persist the unchanged list (rewriting the
storage entry with the same reports). -/
theorem missing_id_noop (s : AppState) (id dept : String) (ok : Bool)
    (h : ∀ r ∈ s.reports, r.id ≠ id) :
    (advanceStatus s id ok).reports = s.reports ∧
    (assignDept s id dept ok).reports = s.reports ∧
    (deleteReport s id ok).reports = s.reports ∧
    (advanceStatus s id true).storage = some (encodeReports s.reports) ∧
    (assignDept s id dept true).storage = some (encodeReports s.reports) ∧
    (deleteReport s id true).storage = some (encodeReports s.reports) := by
  have hadv : s.reports.map (fun r =>
      if r.id = id then { r with status := some (advanceRawStatus r.status) } else r) =
      s.reports :=
    map_id_of_fixed s.reports _ (fun r hr => if_neg (h r hr))
  have hass : s.reports.map (fun r =>
      if r.id = id then { r with department := dept } else r) = s.reports :=
    map_id_of_fixed s.reports _ (fun r hr => if_neg (h r hr))
  have hdel : s.reports.filter (fun r => r.id ≠ id) = s.reports :=
    List.filter_eq_self.mpr (fun r hr => by simp [h r hr])
  refine ⟨?_, ?_, ?_, ?_, ?_, ?_⟩
  · simp only [advanceStatus, saveReports]; rw [hadv]
  · simp only [assignDept, saveReports]; rw [hass]
  · simp only [deleteReport, saveReports]; rw [hdel]
  · simp only [advanceStatus, saveReports]; rw [hadv]; simp
  · simp only [assignDept, saveReports]; rw [hass]; simp
  · simp only [deleteReport, saveReports]; rw [hdel]; simp

/-- Witness for C4 (amended) at a concrete input: operating on the absent
id "999" leaves the sample list unchanged. -/
theorem missing_id_noop_witness :
    (advanceStatus sAB "999" false).reports = sAB.reports :=
  (missing_id_noop sAB "999" "Public Works" false (by decide)).1

/-- Counterexample to C1: submitting a valid report while persistence fails
still updates the in-memory list (it becomes non-empty) and the operation
reports success — there is no PersistenceError; `saveReports` sets the
React state before awaiting the storage call and swallows its failure. -/
theorem persist_failure_counterexample :
    (handleSubmit { reports := [], storage := none } (some "p1")
        (some { latitude := 1, longitude := 2 }) "pothole" "100" "t0" false).2 =
      SubmitResult.submitted ∧
    (handleSubmit { reports := [], storage := none } (some "p1")
        (some { latitude := 1, longitude := 2 }) "pothole" "100" "t0" false).1.reports ≠ [] := by
  refine ⟨by decide, by decide⟩

/-- C1 (amended): every mutating operation routes through `saveReports`,
which updates the in-memory list BEFORE attempting persistence; when
persistence fails, the in-memory list still holds the new value, only the
persisted entry is left unchanged, and no error is reported (the failure is
merely logged — no PersistenceError exists in the code); when persistence
succeeds, the stored entry becomes the encoded new list. -/
theorem save_failure_updates_memory (s : AppState) (l : List Report) (id dept : String) :
    (saveReports s l false).reports = l ∧
    (saveReports s l false).storage = s.storage ∧
    (saveReports s l true).storage = some (encodeReports l) ∧
    (clearAll s false).reports = [] ∧
    (clearAll s false).storage = s.storage ∧
    (deleteReport s id false).storage = s.storage ∧
    (assignDept s id dept false).storage = s.storage ∧
    (advanceStatus s id false).storage = s.storage := by
  simp [saveReports, clearAll, deleteReport, assignDept, advanceStatus]

/-- Counterexample to C2: the id of a new report is the current timestamp
string, with no uniqueness check against the list; submitting at timestamp
"100" into a store already holding a report with id "100" succeeds and
produces a head report whose id equals an existing id. -/
theorem submit_id_collision_counterexample :
    (handleSubmit { reports := [rT], storage := none } (some "p")
        (some { latitude := 3, longitude := 4 }) "crack" "100" "t1" true).2 =
      SubmitResult.submitted ∧
    ((handleSubmit { reports := [rT], storage := none } (some "p")
        (some { latitude := 3, longitude := 4 }) "crack" "100" "t1" true).1.reports.map
      (fun r => r.id)) = ["100", "100"] ∧
    "100" ∈ [rT].map (fun r => r.id) := by
  refine ⟨by decide, by decide, by decide⟩

/-- C2 (amended): for every store state and valid triple, submit succeeds
and prepends exactly one new report with status 'Reported', department
'Unassigned', the given photo/location/description, and id equal to the
current timestamp string; that id is distinct from every existing id
whenever the timestamp string differs from all existing ids (the code
itself does not enforce this). -/
theorem submit_valid_prepends (s : AppState) (p : String) (l : Location)
    (description nowId createdAt : String) (ok : Bool)
    (hP : p ≠ "") (hD : jsTrim description ≠ "") :
    (handleSubmit s (some p) (some l) description nowId createdAt ok).2 =
      SubmitResult.submitted ∧
    ∃ r : Report,
      (handleSubmit s (some p) (some l) description nowId createdAt ok).1.reports =
        r :: s.reports ∧
      r.status = some "Reported" ∧ r.department = "Unassigned" ∧ r.id = nowId ∧
      r.photoUri = p ∧ r.location = some l ∧ r.description = description ∧
      r.createdAt = createdAt ∧
      (nowId ∉ s.reports.map (fun x => x.id) → r.id ∉ s.reports.map (fun x => x.id)) := by
  have hcond : ¬(p = "" ∨ jsTrim description = "") := by simp [hP, hD]
  simp only [handleSubmit]
  rw [if_neg hcond]
  exact ⟨rfl, ⟨_, rfl, rfl, rfl, rfl, rfl, rfl, rfl, rfl, fun h => h⟩⟩

/-- Witness for C2 (amended) at a concrete input: a valid submission into
the sample state succeeds. -/
theorem submit_valid_prepends_witness :
    (handleSubmit sAB (some "p9") (some { latitude := 5, longitude := 6 })
        "broken drain" "777" "t9" true).2 = SubmitResult.submitted :=
  (submit_valid_prepends sAB "p9" { latitude := 5, longitude := 6 }
    "broken drain" "777" "t9" true (by decide) (by decide)).1

/-- Counterexample to C7: entering a whitespace-only department for the
present id "1" does not fail with any error — the prompt callback silently
drops it (the state is unchanged and the outcome is `ignored`, not a
failure); moreover a non-empty department is stored trimmed, not as the
given string: " PW " is stored as "PW". -/
theorem assign_empty_counterexample :
    promptAssign sAB "1" (some "   ") true = (sAB, AssignOutcome.ignored) ∧
    promptAssign sAB "1" none true = (sAB, AssignOutcome.ignored) ∧
    ((promptAssign sAB "1" (some " PW ") true).1.reports.map (fun r => r.department)) =
      ["PW", "Public Works"] := by
  refine ⟨rfl, rfl, by decide⟩

/-- C7 (amended): for every state and every id present in the list, the
assign flow silently ignores a department empty after trimming (no error,
state unchanged, nothing persisted), and for a department non-empty after
trimming it sets exactly the matching report's department to the TRIMMED
string and persists the resulting list. -/
theorem assign_department_spec (s : AppState) (id t : String) (ok : Bool)
    (_hpresent : ∃ r ∈ s.reports, r.id = id) :
    (jsTrim t = "" → promptAssign s id (some t) ok = (s, AssignOutcome.ignored)) ∧
    (jsTrim t ≠ "" →
      (promptAssign s id (some t) ok).2 = AssignOutcome.assigned ∧
      (promptAssign s id (some t) ok).1.reports =
        s.reports.map (fun r => if r.id = id then { r with department := jsTrim t } else r) ∧
      (ok = true → (promptAssign s id (some t) ok).1.storage =
        some (encodeReports (s.reports.map
          (fun r => if r.id = id then { r with department := jsTrim t } else r))))) := by
  constructor
  · intro ht
    by_cases h0 : t = ""
    · simp [promptAssign, h0]
    · simp [promptAssign, h0, ht]
  · intro ht
    have h0 : t ≠ "" := by
      intro h
      exact ht (by simp [h, jsTrim])
    constructor
    · simp [promptAssign, h0, ht]
    constructor
    · simp [promptAssign, h0, ht, assignDept, saveReports]
    · intro hok
      simp [promptAssign, h0, ht, assignDept, saveReports, hok]

/-- Witness for C7 (amended) at a concrete input: assigning " PW " at the
present id "1" reaches the assignment branch. -/
theorem assign_department_spec_witness :
    (promptAssign sAB "1" (some " PW ") true).2 = AssignOutcome.assigned :=
  ((assign_department_spec sAB "1" " PW " true ⟨rA, by decide, rfl⟩).2 (by decide)).1
